import Mathlib

/-!
Verification of the pixll WebIDL toolchain (`src/pixll_ui/src/lib.rs`):
a line-oriented WebIDL parser, an FFI bridge-code generator, and the
`WasmBridge` memory-transfer primitive.  Each definition below is a
shallow embedding of the corresponding Rust item, translated directly
from the source.
-/

namespace Pixll

/-! ## String helpers mirroring the Rust standard library

The parser uses `str::trim`, `str::lines`, `str::split_whitespace`,
`str::trim_end_matches`, `str::starts_with`, `str::contains` and
`str::split`.  We model them by structural recursion over the character
list of a Lean `String`, so that every definition evaluates.  (`rustTrim`
removes ASCII whitespace; Rust trims Unicode whitespace, which coincides
on every input made of ASCII text.)
-/

/-- Split a character list at every character satisfying `p`.  A list with
`n` separator characters yields `n + 1` (possibly empty) parts, exactly as
Rust `str::split` does. -/
def splitPred (p : Char → Bool) : List Char → List (List Char)
  | [] => [[]]
  | d :: rest =>
    let r := splitPred p rest
    if p d then [] :: r
    else
      match r with
      | [] => [[d]]
      | h :: t => (d :: h) :: t

/-- Rust `str::split(c)` for a single-character pattern. -/
def splitChar (c : Char) (l : List Char) : List (List Char) :=
  splitPred (fun d => d = c) l

/-- Rust `str::trim`: strip whitespace from both ends. -/
def rustTrim (s : String) : String :=
  ⟨((s.data.dropWhile Char.isWhitespace).reverse.dropWhile Char.isWhitespace).reverse⟩

/-- Rust `str::starts_with(pre)`. -/
def rustStartsWith (s pre : String) : Bool :=
  pre.data.isPrefixOf s.data

/-- Rust `str::contains(c)` for a character pattern. -/
def rustContains (s : String) (c : Char) : Bool :=
  s.data.any (fun d => d = c)

/-- Rust `str::split_whitespace`: split at whitespace runs, dropping empty
tokens. -/
def splitWhitespace (s : String) : List String :=
  ((splitPred Char.isWhitespace s.data).filter (fun t => t ≠ [])).map (fun t => ⟨t⟩)

/-- Rust `str::trim_end_matches(c)`: repeatedly strip the suffix character
`c`. -/
def trimEndMatches (s : String) (c : Char) : String :=
  ⟨(s.data.reverse.dropWhile (fun d => d = c)).reverse⟩

/-- Rust `str::lines`: split at newlines, strip one trailing carriage
return from each line, and produce no final empty line for input ending in
a newline. -/
def rustLines (s : String) : List String :=
  let parts := splitChar '\n' s.data
  let parts := if parts.getLast? = some [] then parts.dropLast else parts
  parts.map (fun l => ⟨if l.getLast? = some '\r' then l.dropLast else l⟩)

/-! ## Data model (`WebIDLType` and friends, lines 4–49) -/

/-- The `WebIDLType` enum of the source. `Interface` is the name-only
reference the spec calls `InterfaceRef`. -/
inductive WebIDLType where
  | Void
  | Boolean
  | Byte
  | Octet
  | Short
  | UnsignedShort
  | Long
  | UnsignedLong
  | Float
  | Double
  | String
  | Object
  | Promise (inner : WebIDLType)
  | Interface (name : String)
  deriving DecidableEq, Repr

/-- The `WebIDLArgument` struct. -/
structure WebIDLArgument where
  name : String
  typ : WebIDLType
  optional : Bool
  deriving DecidableEq, Repr

/-- The `WebIDLMethod` struct. -/
structure WebIDLMethod where
  name : String
  return_type : WebIDLType
  arguments : List WebIDLArgument
  is_static : Bool
  deriving DecidableEq, Repr

/-- The `WebIDLAttribute` struct. -/
structure WebIDLAttribute where
  name : String
  typ : WebIDLType
  readonly : Bool
  deriving DecidableEq, Repr

/-- The `WebIDLInterface` struct. -/
structure WebIDLInterface where
  name : String
  methods : List WebIDLMethod
  attributes : List WebIDLAttribute
  deriving DecidableEq, Repr

/-! ## WebIDLParser (lines 53–118) -/

/-- `WebIDLParser::parse_method` (lines 95–106): the method name is the
text before the first `(`, trimmed; the return type is always `Void`, the
argument list always empty, `is_static` always false.  It never fails. -/
def parse_method (line : String) : Except String WebIDLMethod :=
  let parts := splitChar '(' line.data
  let name := rustTrim ⟨parts.headD []⟩
  .ok { name := name, return_type := .Void, arguments := [], is_static := false }

/-- `WebIDLParser::parse_attribute` (lines 108–117): `readonly` iff the
line starts with `readonly`; the name is the last whitespace token with
trailing `;` stripped; the type is always `Object`.  The source unwraps
`parts.last()`, which cannot fail because the call site guarantees a
non-empty line; we model the unwrap with a `""` default.  It never
fails. -/
def parse_attribute (line : String) : Except String WebIDLAttribute :=
  let readonly := rustStartsWith line "readonly"
  let parts := splitWhitespace line
  .ok { name := trimEndMatches (parts.getLastD "") ';', typ := .Object, readonly := readonly }

/-- The body of the `for line in input.lines()` loop of
`WebIDLParser::parse` (lines 54–93), as a recursion over the remaining
lines carrying the accumulated `interfaces` vector and the
`current_interface` option.  Branches in source order: an
`interface`-prefixed line opens a fresh block (dropping any block already
open) and fails when no second whitespace token exists; a line equal to
`\x7d;` pushes the open block, if any; inside an open block a line
containing `(` is a method and any other non-empty line an attribute;
everything else is skipped. -/
def parseLines : List String → List WebIDLInterface → Option WebIDLInterface →
    Except String (List WebIDLInterface)
  | [], interfaces, _ => .ok interfaces
  | rawLine :: rest, interfaces, current =>
    let line := rustTrim rawLine
    if rustStartsWith line "interface" then
      match (splitWhitespace line)[1]? with
      | none => .error "Invalid interface definition"
      | some tok =>
          parseLines rest interfaces
            (some { name := trimEndMatches tok '\x7b', methods := [], attributes := [] })
    else if line = "\x7d;" then
      match current with
      | some iface => parseLines rest (interfaces ++ [iface]) none
      | none => parseLines rest interfaces none
    else
      match current with
      | some iface =>
          if rustContains line '(' then
            match parse_method line with
            | .error e => .error e
            | .ok m =>
                parseLines rest interfaces (some { iface with methods := iface.methods ++ [m] })
          else if line ≠ "" then
            match parse_attribute line with
            | .error e => .error e
            | .ok a =>
                parseLines rest interfaces
                  (some { iface with attributes := iface.attributes ++ [a] })
          else
            parseLines rest interfaces (some iface)
      | none => parseLines rest interfaces none

/-- `WebIDLParser::parse` (lines 54–93). -/
def parse (input : String) : Except String (List WebIDLInterface) :=
  parseLines (rustLines input) [] none

instance {ε α : Type} [DecidableEq ε] [DecidableEq α] : DecidableEq (Except ε α) := fun x y =>
  match x, y with
  | .ok a, .ok b =>
      if h : a = b then isTrue (by rw [h]) else isFalse (by simp [h])
  | .error a, .error b =>
      if h : a = b then isTrue (by rw [h]) else isFalse (by simp [h])
  | .ok _, .error _ => isFalse (by simp)
  | .error _, .ok _ => isFalse (by simp)

/-! ## FFIBridgeGenerator (lines 121–173)

`generate` builds one output string by pushing, in order: a `// FFI Types`
header, one handle-type block per interface, a `// Bridge Functions`
header, and one bridge function per method of each interface.  We embed
the two `format!` templates verbatim (with `\x7b`/`\x7d` escapes for the
brace characters of the emitted Rust text) and assemble the output exactly
in the source's push order.
-/

/-- The export symbol `\x7binterface\x7d_\x7bmethod\x7d` interpolated in
`generate_bridge_function` (line 163). -/
def exportName (iname mname : String) : String :=
  iname ++ "_" ++ mname

/-- The handle-type block pushed for one interface (lines 130–145). -/
def handleType (name : String) : String :=
  "\n#[repr(C)]\npub struct " ++ name ++ "(*mut std::ffi::c_void);\n\nimpl " ++ name ++
    " \x7b\n    unsafe fn from_ptr(ptr: *mut std::ffi::c_void) -> Self \x7b\n        " ++ name ++
    "(ptr)\n    \x7d\n    \n    fn as_ptr(&self) -> *mut std::ffi::c_void \x7b\n        self.0\n    \x7d\n\x7d\n"

/-- `FFIBridgeGenerator::generate_bridge_function` (lines 159–172). -/
def generate_bridge_function (iname mname : String) : String :=
  "\n#[no_mangle]\npub extern \"C\" fn " ++ exportName iname mname ++
    "(ptr: *mut std::ffi::c_void) \x7b\n    unsafe \x7b\n        let obj = " ++ iname ++
    "::from_ptr(ptr);\n        // Call actual implementation\n    \x7d\n\x7d\n"

/-- The handle-type blocks pushed by the first loop of `generate`
(lines 129–146), one per interface, in schema order. -/
def handleDecls (interfaces : List WebIDLInterface) : List String :=
  interfaces.map (fun i => handleType i.name)

/-- The bridge functions pushed by the second loop of `generate`
(lines 150–154): for each interface in order, one per method in order. -/
def bridgeDecls (interfaces : List WebIDLInterface) : List String :=
  interfaces.flatMap (fun i => i.methods.map (fun m => generate_bridge_function i.name m.name))

/-- `FFIBridgeGenerator::generate` (lines 124–157): the concatenation, in
push order, of the headers, the handle-type blocks and the bridge
functions.  Its type is `String`: the source has no error path at all. -/
def generate (interfaces : List WebIDLInterface) : String :=
  "// FFI Types\n" ++ String.join (handleDecls interfaces) ++
    "\n// Bridge Functions\n" ++ String.join (bridgeDecls interfaces)

/-- The export symbols of the emitted trampolines, in emission order. -/
def trampolineNames (interfaces : List WebIDLInterface) : List String :=
  interfaces.flatMap (fun i => i.methods.map (fun m => exportName i.name m.name))

/-! ## WasmBridge (lines 176–219)

The bridge owns a byte region of `memory_len = 1024 * 1024` bytes.  The
region's contents are modelled as a total function `Nat → Nat`, because
`read_from_js` performs an unchecked `copy_nonoverlapping` and so can
observe bytes at any offset, in or out of the region (out-of-region
access is undefined behaviour in the source; the total function records
that no bounds check exists).  `new` leaves the region uninitialized, so
it takes the arbitrary initial contents as an argument.
-/

/-- The `WasmBridge` struct (lines 176–180). -/
structure WasmBridge where
  memory : Nat → Nat
  memory_len : Nat

/-- `WasmBridge::new` (lines 183–193): a 1 MiB region with unspecified
initial contents. -/
def WasmBridge.new (init : Nat → Nat) : WasmBridge :=
  { memory := init, memory_len := 1024 * 1024 }

/-- `WasmBridge::allocate` (lines 215–218): ignores the requested size and
always returns offset `0`; it has no failure path and updates nothing. -/
def WasmBridge.allocate (_self : WasmBridge) (_size : Nat) : Nat :=
  0

/-- The effect of `copy_nonoverlapping(data, memory + ptr, len)` on the
modelled region contents: positions `ptr ≤ i < ptr + data.length` now hold
`data`, everything else is unchanged. -/
def writeMem (mem : Nat → Nat) (ptr : Nat) (data : List Nat) : Nat → Nat :=
  fun i => if ptr ≤ i ∧ i < ptr + data.length then data.getD (i - ptr) 0 else mem i

/-- `WasmBridge::write_to_js` (lines 195–201): allocate, copy the bytes at
the returned offset, return the offset together with the updated
bridge. -/
def WasmBridge.write_to_js (self : WasmBridge) (data : List Nat) : Nat × WasmBridge :=
  let ptr := self.allocate data.length
  (ptr, { self with memory := writeMem self.memory ptr data })

/-- `WasmBridge::read_from_js` (lines 203–213): copy `len` bytes starting
at `ptr`, with no bounds check of any kind. -/
def WasmBridge.read_from_js (self : WasmBridge) (ptr len : Nat) : List Nat :=
  (List.range len).map (fun i => self.memory (ptr + i))

/-! ## Concrete inputs and schemas used by individual claims -/

/-- A boolean version of the parser's only failure condition: the trimmed
line starts with `interface` and has no second whitespace token. -/
def badLine (l : String) : Bool :=
  rustStartsWith (rustTrim l) "interface" && ((splitWhitespace (rustTrim l))[1]?).isNone

/-- A name with no underscore character. -/
def underscoreFree (s : String) : Prop :=
  '_' ∉ s.data

instance (s : String) : Decidable (underscoreFree s) := by
  unfold underscoreFree
  infer_instance

/-- The IDL text of the parser example: the four lines of the
`GPUAdapter` interface. -/
def exampleIDL : String :=
  "interface GPUAdapter \x7b\nPromise<GPUDevice> requestDevice(optional GPUDeviceDescriptor descriptor);\nreadonly attribute DOMString name;\n\x7d;"

/-- A method record with no arguments, as the source parser builds. -/
def mVoid (n : String) : WebIDLMethod :=
  { name := n, return_type := .Void, arguments := [], is_static := false }

/-- Two interfaces with distinct, underscore-free names whose trampoline
symbols stay distinct. -/
def demoSchema : List WebIDLInterface :=
  [{ name := "A", methods := [mVoid "m"], attributes := [] },
   { name := "B", methods := [mVoid "m"], attributes := [] }]

/-- Two interfaces with distinct names and distinct method names whose
trampoline symbols nevertheless collide: `A_B` + `C` and `A` + `B_C` both
export `A_B_C`. -/
def collideSchema : List WebIDLInterface :=
  [{ name := "A_B", methods := [mVoid "C"], attributes := [] },
   { name := "A", methods := [mVoid "B_C"], attributes := [] }]

/-- A schema whose method types reference interfaces `Missing` and `Nope`
that are defined nowhere in the schema. -/
def unresolvedSchema : List WebIDLInterface :=
  [{ name := "A",
     methods := [{ name := "m", return_type := .Interface "Missing",
                   arguments := [{ name := "x", typ := .Interface "Nope", optional := false }],
                   is_static := false }],
     attributes := [] }]

/-- A bridge whose region initially holds zeros. -/
def bridge0 : WasmBridge :=
  WasmBridge.new (fun _ => 0)

/-- The first example write: 3 bytes into a fresh bridge. -/
def firstWrite : Nat × WasmBridge :=
  bridge0.write_to_js [1, 2, 3]

/-- The second example write, after the first, with no reset between. -/
def secondWrite : Nat × WasmBridge :=
  firstWrite.2.write_to_js [4, 5, 6]

/-! ## Step lemmas for the parser loop

One lemma per branch of the loop body, so that later proofs can follow
the source's control flow. -/

theorem parseLines_interface_bad {l : String} (ls : List String)
    (acc : List WebIDLInterface) (cur : Option WebIDLInterface)
    (hs : rustStartsWith (rustTrim l) "interface" = true)
    (hg : (splitWhitespace (rustTrim l))[1]? = none) :
    parseLines (l :: ls) acc cur = .error "Invalid interface definition" := by
  cases cur with
  | some i => rw [parseLines, if_pos hs, hg]
  | none => rw [parseLines, if_pos hs, hg]

theorem parseLines_interface_ok {l tok : String} (ls : List String)
    (acc : List WebIDLInterface) (cur : Option WebIDLInterface)
    (hs : rustStartsWith (rustTrim l) "interface" = true)
    (hg : (splitWhitespace (rustTrim l))[1]? = some tok) :
    parseLines (l :: ls) acc cur =
      parseLines ls acc
        (some { name := trimEndMatches tok '\x7b', methods := [], attributes := [] }) := by
  cases cur with
  | some i => rw [parseLines, if_pos hs, hg]
  | none => rw [parseLines, if_pos hs, hg]

theorem parseLines_close_some {l : String} (ls : List String)
    (acc : List WebIDLInterface) (i : WebIDLInterface)
    (hs : rustStartsWith (rustTrim l) "interface" = false)
    (hc : rustTrim l = "\x7d;") :
    parseLines (l :: ls) acc (some i) = parseLines ls (acc ++ [i]) none := by
  rw [parseLines, if_neg (by simp [hs]), if_pos hc]

theorem parseLines_close_none {l : String} (ls : List String)
    (acc : List WebIDLInterface)
    (hs : rustStartsWith (rustTrim l) "interface" = false)
    (hc : rustTrim l = "\x7d;") :
    parseLines (l :: ls) acc none = parseLines ls acc none := by
  rw [parseLines, if_neg (by simp [hs]), if_pos hc]

/-- The method record `parse_method` wraps in `Except.ok`. -/
def okMethod (line : String) : WebIDLMethod :=
  match parse_method line with
  | .ok m => m
  | .error _ => { name := "", return_type := .Void, arguments := [], is_static := false }

/-- The attribute record `parse_attribute` wraps in `Except.ok`. -/
def okAttribute (line : String) : WebIDLAttribute :=
  match parse_attribute line with
  | .ok a => a
  | .error _ => { name := "", typ := .Object, readonly := false }

theorem parseLines_member_some {l : String} (ls : List String)
    (acc : List WebIDLInterface) (i : WebIDLInterface)
    (hs : rustStartsWith (rustTrim l) "interface" = false)
    (hc : rustTrim l ≠ "\x7d;") :
    parseLines (l :: ls) acc (some i) =
      (if rustContains (rustTrim l) '(' then
        parseLines ls acc (some { i with methods := i.methods ++ [okMethod (rustTrim l)] })
      else if rustTrim l ≠ "" then
        parseLines ls acc (some { i with attributes := i.attributes ++ [okAttribute (rustTrim l)] })
      else
        parseLines ls acc (some i)) := by
  rw [parseLines, if_neg (by simp [hs]), if_neg hc]
  simp only [parse_method, parse_attribute, okMethod, okAttribute]

theorem parseLines_skip_none {l : String} (ls : List String)
    (acc : List WebIDLInterface)
    (hs : rustStartsWith (rustTrim l) "interface" = false)
    (hc : rustTrim l ≠ "\x7d;") :
    parseLines (l :: ls) acc none = parseLines ls acc none := by
  rw [parseLines, if_neg (by simp [hs]), if_neg hc]

/-- The loop succeeds exactly when no line is an `interface` line missing
its name token: every branch except the missing-name one recurses, and
`parse_method` and `parse_attribute` always return `ok`. -/
theorem parseLines_isOk_iff (ls : List String) :
    ∀ (acc : List WebIDLInterface) (cur : Option WebIDLInterface),
      (parseLines ls acc cur).isOk = true ↔ ∀ l ∈ ls, badLine l = false := by
  induction ls with
  | nil =>
      intro acc cur
      simp [parseLines, Except.isOk, Except.toBool]
  | cons l rest ih =>
      intro acc cur
      by_cases hs : rustStartsWith (rustTrim l) "interface" = true
      · cases hg : (splitWhitespace (rustTrim l))[1]? with
        | none =>
            rw [parseLines_interface_bad rest acc cur hs hg]
            simp [Except.isOk, Except.toBool, badLine, hs, hg]
        | some tok =>
            rw [parseLines_interface_ok rest acc cur hs hg, ih]
            simp [badLine, hs, hg]
      · have hs' : rustStartsWith (rustTrim l) "interface" = false := by
          cases h : rustStartsWith (rustTrim l) "interface" <;> simp_all
        have hbad : badLine l = false := by simp [badLine, hs']
        by_cases hc : rustTrim l = "\x7d;"
        · cases cur with
          | some i =>
              rw [parseLines_close_some rest acc i hs' hc, ih]
              simp [hbad]
          | none =>
              rw [parseLines_close_none rest acc hs' hc, ih]
              simp [hbad]
        · cases cur with
          | none =>
              rw [parseLines_skip_none rest acc hs' hc, ih]
              simp [hbad]
          | some i =>
              rw [parseLines_member_some rest acc i hs' hc]
              by_cases hp : rustContains (rustTrim l) '(' = true
              · rw [if_pos hp, ih]
                simp [hbad]
              · rw [if_neg (by simp [hp])]
                by_cases he : rustTrim l ≠ ""
                · rw [if_pos he, ih]
                  simp [hbad]
                · rw [if_neg he, ih]
                  simp [hbad]

/-- C9: for every input text, `parse` returns an error if and only if some
trimmed line starts with `interface` and contains no second
whitespace-delimited token; every other input — malformed members, stray
text outside blocks, unmatched close lines — parses without error. -/
theorem C9_parse_error_iff_bad_interface_line (input : String) :
    (parse input).isOk = false ↔
      ∃ l ∈ rustLines input,
        rustStartsWith (rustTrim l) "interface" = true ∧
          (splitWhitespace (rustTrim l))[1]? = none := by
  rw [show parse input = parseLines (rustLines input) [] none from rfl,
    ← Bool.not_eq_true, parseLines_isOk_iff (rustLines input) [] none]
  simp [badLine, Option.isNone_iff_eq_none]

/-- C10: an `interface` block never closed by a `\x7d;` line is silently
dropped together with all its parsed members (the result is the same as if
the block had never been opened, and no error is reported), and an
`interface` line encountered while a block is open discards the open
block.  The third conjunct runs the parser on an input whose only block is
unclosed: the schema comes back empty with no error. -/
theorem C10_unclosed_and_reopened_blocks_dropped :
    (∀ (ls : List String) (acc : List WebIDLInterface) (cur : Option WebIDLInterface),
        (∀ l ∈ ls, rustTrim l ≠ "\x7d;") → parseLines ls acc cur = parseLines ls acc none) ∧
    (∀ (l : String) (ls : List String) (acc : List WebIDLInterface) (i : WebIDLInterface),
        rustStartsWith (rustTrim l) "interface" = true →
        parseLines (l :: ls) acc (some i) = parseLines (l :: ls) acc none) ∧
    parse "interface A \x7b\nvoid m();\nreadonly attribute DOMString x;" = .ok [] := by
  refine ⟨?_, ?_, by decide⟩
  · intro ls
    induction ls with
    | nil => intro acc cur h; cases cur <;> rfl
    | cons l rest ih =>
        intro acc cur h
        have hl : rustTrim l ≠ "\x7d;" := h l (List.mem_cons_self l rest)
        have hrest : ∀ x ∈ rest, rustTrim x ≠ "\x7d;" := fun x hx => h x (List.mem_cons_of_mem l hx)
        by_cases hs : rustStartsWith (rustTrim l) "interface" = true
        · cases hg : (splitWhitespace (rustTrim l))[1]? with
          | none =>
              rw [parseLines_interface_bad rest acc cur hs hg,
                parseLines_interface_bad rest acc none hs hg]
          | some tok =>
              rw [parseLines_interface_ok rest acc cur hs hg,
                parseLines_interface_ok rest acc none hs hg]
        · have hs' : rustStartsWith (rustTrim l) "interface" = false := by
            cases hb : rustStartsWith (rustTrim l) "interface" <;> simp_all
          cases cur with
          | none => rfl
          | some i =>
              rw [parseLines_member_some rest acc i hs' hl,
                parseLines_skip_none rest acc hs' hl]
              by_cases hp : rustContains (rustTrim l) '(' = true
              · rw [if_pos hp]
                exact ih acc _ hrest
              · rw [if_neg (by simp [hp])]
                by_cases he : rustTrim l ≠ ""
                · rw [if_pos he]
                  exact ih acc _ hrest
                · rw [if_neg he]
                  exact ih acc _ hrest
  · intro l ls acc i hs
    cases hg : (splitWhitespace (rustTrim l))[1]? with
    | none =>
        rw [parseLines_interface_bad ls acc (some i) hs hg,
          parseLines_interface_bad ls acc none hs hg]
    | some tok =>
        rw [parseLines_interface_ok ls acc (some i) hs hg,
          parseLines_interface_ok ls acc none hs hg]

/-- Witness for C10: a concrete member line is not a close line, and with
it the parser state with an open block `A` yields the same result as with
no open block. -/
theorem C10_unclosed_and_reopened_blocks_dropped_witness :
    (∀ l ∈ ["void m();"], rustTrim l ≠ "\x7d;") ∧
      parseLines ["void m();"] [] (some { name := "A", methods := [], attributes := [] }) =
        parseLines ["void m();"] [] none :=
  ⟨by decide, C10_unclosed_and_reopened_blocks_dropped.1 ["void m();"] []
      (some { name := "A", methods := [], attributes := [] }) (by decide)⟩

/-- C1: running the parser on the four-line `GPUAdapter` example.  The
source's stub parsing yields a method whose *name* is the whole text
before `(` (return-type tokens included), return type `Void`, no
arguments, and an attribute of type `Object` — not the
`Promise(InterfaceRef "GPUDevice")` return type, `InterfaceRef` optional
argument and `String` attribute type the claim describes. -/
theorem C1_parse_example_stubbed :
    parse exampleIDL =
      .ok [{ name := "GPUAdapter",
             methods := [{ name := "Promise<GPUDevice> requestDevice",
                           return_type := .Void, arguments := [], is_static := false }],
             attributes := [{ name := "name", typ := .Object, readonly := true }] }] := by
  decide

/-- C2: `allocate` ignores the requested size, keeps no cursor, and has no
failure path: every write — the second one included — returns offset `0`.
With the claimed bump contract the second of two 10-byte writes into the
arena would fail with `ArenaExhausted` once the remaining capacity is
short; the source can never fail. -/
theorem C2_second_allocate_still_returns_zero (b : WasmBridge) (d₁ d₂ : List Nat) :
    (b.write_to_js d₁).1 = 0 ∧ ((b.write_to_js d₁).2.write_to_js d₂).1 = 0 :=
  ⟨rfl, rfl⟩

/-- Reading back `d.length` positions of a region that holds `d` at offset
`0` returns `d`. -/
theorem range_map_getD (d : List Nat) :
    (List.range d.length).map (fun i => d.getD i 0) = d := by
  apply List.ext_getElem
  · simp
  · intro i h1 h2
    simp [List.getD_eq_getElem?_getD, List.getElem?_eq_getElem h2]

/-- C3: reading back immediately after a write, at the returned offset and
with the written length, returns exactly the written bytes, whenever the
allocation fits within the capacity. -/
theorem C3_write_then_read_roundtrip (b : WasmBridge) (data : List Nat)
    (h : data.length ≤ b.memory_len) :
    ((b.write_to_js data).2.read_from_js (b.write_to_js data).1 data.length) = data := by
  show (List.range data.length).map
      (fun i => writeMem b.memory 0 data (0 + i)) = data
  have hcong : ∀ i ∈ List.range data.length,
      writeMem b.memory 0 data (0 + i) = data.getD i 0 := by
    intro i hi
    rw [List.mem_range] at hi
    simp [writeMem, Nat.zero_add, hi]
  rw [List.map_congr_left hcong, range_map_getD]

/-- Witness for C3 at a concrete bridge and byte list. -/
theorem C3_write_then_read_roundtrip_witness :
    ([5, 6, 7] : List Nat).length ≤ bridge0.memory_len ∧
      ((bridge0.write_to_js [5, 6, 7]).2.read_from_js (bridge0.write_to_js [5, 6, 7]).1 3) =
        [5, 6, 7] :=
  ⟨by decide, C3_write_then_read_roundtrip bridge0 [5, 6, 7] (by decide)⟩

/-- C4: a bare non-`interface` line outside any block is silently
skipped: the parse succeeds with an empty schema instead of failing with
`UnexpectedTokenError` as the claim requires. -/
theorem C4_stray_line_silently_skipped :
    parse "GPUDevice adapter;" = .ok [] := by
  decide

set_option maxRecDepth 4000 in
/-- C6: `generate` has result type `String` — no error path exists — and
on a schema whose `InterfaceRef`s (`Missing`, `Nope`) match no interface
it still emits the complete binding surface: the handle type for `A` and
the trampoline for `A::m`, rather than failing with
`UnresolvedTypeReferenceError`. -/
theorem C6_generate_never_reports_unresolved_refs :
    generate unresolvedSchema =
      "// FFI Types\n" ++ handleType "A" ++ "\n// Bridge Functions\n" ++
        generate_bridge_function "A" "m" := by
  decide

/-- C7: two successive writes with no reset between them both return
offset `0`, so their byte ranges `[0, 3)` and `[0, 3)` coincide instead of
being disjoint. -/
theorem C7_successive_writes_alias :
    firstWrite.1 = 0 ∧ secondWrite.1 = 0 ∧
      ¬(firstWrite.1 + 3 ≤ secondWrite.1 ∨ secondWrite.1 + 3 ≤ firstWrite.1) := by
  refine ⟨rfl, rfl, ?_⟩
  decide

/-- C8: `read_from_js` performs an unchecked copy: it returns `len` bytes
for every offset and length, even when `offset + length` exceeds the
capacity — reading at offset `1024 * 1024` (the capacity itself) returns
whatever the model says lies there, never an `OutOfBounds` failure. -/
theorem C8_read_has_no_bounds_check :
    (∀ (b : WasmBridge) (ptr len : Nat), (b.read_from_js ptr len).length = len) ∧
      (WasmBridge.new (fun _ => 7)).read_from_js (1024 * 1024) 4 = [7, 7, 7, 7] := by
  constructor
  · intro b ptr len
    simp [WasmBridge.read_from_js]
  · rfl

/-! ## Uniqueness of trampoline export names -/

/-- Splitting a character list at a `'_'` that occurs in neither prefix
is unambiguous. -/
theorem append_underscore_inj :
    ∀ {a₁ a₂ b₁ b₂ : List Char}, '_' ∉ a₁ → '_' ∉ a₂ →
      a₁ ++ '_' :: b₁ = a₂ ++ '_' :: b₂ → a₁ = a₂ ∧ b₁ = b₂ := by
  intro a₁
  induction a₁ with
  | nil =>
      intro a₂ b₁ b₂ h₁ h₂ h
      cases a₂ with
      | nil => simpa using h
      | cons c t =>
          simp only [List.nil_append, List.cons_append, List.cons.injEq] at h
          exact absurd (show '_' ∈ c :: t by rw [h.1]; exact List.mem_cons_self c t) h₂
  | cons c t ih =>
      intro a₂ b₁ b₂ h₁ h₂ h
      cases a₂ with
      | nil =>
          simp only [List.nil_append, List.cons_append, List.cons.injEq] at h
          exact absurd (show '_' ∈ c :: t by rw [← h.1]; exact List.mem_cons_self c t) h₁
      | cons d u =>
          simp only [List.cons_append, List.cons.injEq] at h
          obtain ⟨hcd, hrest⟩ := h
          obtain ⟨ht, hb⟩ :=
            ih (fun hm => h₁ (List.mem_cons_of_mem c hm))
              (fun hm => h₂ (List.mem_cons_of_mem d hm)) hrest
          exact ⟨by rw [hcd, ht], hb⟩

/-- The character list of an export symbol. -/
theorem exportName_data (i m : String) :
    (exportName i m).data = i.data ++ '_' :: m.data := by
  have hu : ("_" : String).data = ['_'] := rfl
  simp [exportName, String.data_append, hu]

/-- Two export symbols of underscore-free interface names agree only when
both name parts agree. -/
theorem exportName_inj {i₁ m₁ i₂ m₂ : String}
    (h₁ : underscoreFree i₁) (h₂ : underscoreFree i₂)
    (h : exportName i₁ m₁ = exportName i₂ m₂) : i₁ = i₂ ∧ m₁ = m₂ := by
  have hd := congrArg String.data h
  rw [exportName_data, exportName_data] at hd
  obtain ⟨ha, hb⟩ := append_underscore_inj h₁ h₂ hd
  exact ⟨String.ext ha, String.ext hb⟩

/-- For one fixed interface name the export symbol determines the method
name. -/
theorem exportName_left_inj (i : String) :
    Function.Injective (fun n => exportName i n) := by
  intro a b h
  have hd := congrArg String.data h
  rw [exportName_data, exportName_data] at hd
  have h2 := List.append_cancel_left hd
  simp only [List.cons.injEq, true_and] at h2
  exact String.ext h2

/-- Export names are globally distinct when interface names are distinct
and underscore-free and method names are distinct per interface. -/
theorem trampolineNames_nodup (interfaces : List WebIDLInterface)
    (hnames : (interfaces.map fun i => i.name).Nodup)
    (hmeth : ∀ i ∈ interfaces, (i.methods.map fun m => m.name).Nodup)
    (hfree : ∀ i ∈ interfaces, underscoreFree i.name) :
    (trampolineNames interfaces).Nodup := by
  rw [trampolineNames, List.nodup_flatMap]
  constructor
  · intro i hi
    have hrw : i.methods.map (fun m => exportName i.name m.name) =
        (i.methods.map fun m => m.name).map (fun n => exportName i.name n) := by
      simp [List.map_map, Function.comp]
    rw [hrw]
    exact (hmeth i hi).map (exportName_left_inj i.name)
  · have hp : interfaces.Pairwise fun a b => a.name ≠ b.name :=
      List.pairwise_map.mp hnames
    refine List.Pairwise.imp_of_mem ?_ hp
    intro a b ha hb hne
    simp only [Function.onFun, List.Disjoint]
    intro x hxa hxb
    simp only [List.mem_map] at hxa hxb
    obtain ⟨ma, _, hax⟩ := hxa
    obtain ⟨mb, _, hbx⟩ := hxb
    exact hne (exportName_inj (hfree a ha) (hfree b hb) (hax.trans hbx.symm)).1

/-- The trampoline count is the total method count. -/
theorem trampolineNames_length (interfaces : List WebIDLInterface) :
    (trampolineNames interfaces).length = (interfaces.map fun i => i.methods.length).sum := by
  induction interfaces with
  | nil => rfl
  | cons i t ih =>
      simp only [trampolineNames, List.flatMap_cons, List.length_append, List.length_map,
        List.map_cons, List.sum_cons] at ih ⊢
      rw [ih]

/-- C5 counterexample: interfaces `A_B` (method `C`) and `A` (method
`B_C`) have distinct interface names and distinct method names, yet both
trampolines export the symbol `A_B_C`: the emitted symbol names are not
globally unique for every schema. -/
theorem C5_trampoline_name_collision :
    ¬ (trampolineNames collideSchema).Nodup := by
  decide

/-- C5 (amended): the generator emits exactly one handle type per
interface and one trampoline per method (their count is the total method
count), every trampoline export name is exactly
`\x7bInterfaceName\x7d_\x7bMethodName\x7d`, and the export names are
globally unique provided the interface names are pairwise distinct and
underscore-free and each interface's method names are pairwise
distinct. -/
theorem C5_generate_shape (interfaces : List WebIDLInterface)
    (hnames : (interfaces.map fun i => i.name).Nodup)
    (hmeth : ∀ i ∈ interfaces, (i.methods.map fun m => m.name).Nodup)
    (hfree : ∀ i ∈ interfaces, underscoreFree i.name) :
    (handleDecls interfaces).length = interfaces.length ∧
    (trampolineNames interfaces).length = (interfaces.map fun i => i.methods.length).sum ∧
    trampolineNames interfaces =
      interfaces.flatMap (fun i => i.methods.map fun m => i.name ++ "_" ++ m.name) ∧
    (trampolineNames interfaces).Nodup :=
  ⟨by simp [handleDecls], trampolineNames_length interfaces, rfl,
    trampolineNames_nodup interfaces hnames hmeth hfree⟩

/-- Witness for C5 at a two-interface schema with distinct underscore-free
names. -/
theorem C5_generate_shape_witness :
    (demoSchema.map fun i => i.name).Nodup ∧
      (∀ i ∈ demoSchema, underscoreFree i.name) ∧
      (trampolineNames demoSchema).Nodup :=
  ⟨by decide, by decide,
    (C5_generate_shape demoSchema (by decide) (by decide) (by decide)).2.2.2⟩

end Pixll
